import Mathlib

/-!
Verification of the secure RISC-V SoC firmware tooling
(`sign_firmware.py`, `bin2hex.py`, `make_imem.py`).

The Python sources are shallowly embedded: byte strings become `List Nat`
(each element a byte value `< 256`), the `struct` little-endian packing and
`bytes.fromhex` decoding are modelled byte-for-byte, and the HMAC-SHA256 of
`hmac`/`hashlib` is implemented in full (FIPS 180-4 / RFC 2104) so that the
signature bytes produced by `sign_firmware` are the real digest values.
File I/O and logging are outside the embedding: `sign_firmware` takes the
firmware bytes, the hex key string, the version and the clock reading
(timestamp) as arguments and returns either a typed error or the bytes of
the signed image, exactly as the script computes them.
-/

namespace SoC

/-- Model of Python struct.pack with format "<I": the four little-endian
bytes of a 32-bit word. -/
def le32 (w : Nat) : List Nat :=
  [w % 256, (w >>> 8) % 256, (w >>> 16) % 256, (w >>> 24) % 256]

/-- Model of Python struct.unpack with format "<I" on the slice
`m[i:i+4]`: read four bytes at offset `i` little-endian (missing bytes
read as zero, which never happens on the in-range offsets the tools
use). -/
def readLE32 (m : List Nat) (i : Nat) : Nat :=
  m.getD i 0 + 256 * m.getD (i + 1) 0 + 65536 * m.getD (i + 2) 0 +
    16777216 * m.getD (i + 3) 0

/-- A byte string as a big-endian natural number (the number whose base-256
digits are the bytes in order).  Together with the length this is a faithful
representation of a byte string, and it is what the SHA-256 core below
consumes. -/
def bytesToNat (l : List Nat) : Nat :=
  l.foldl (fun a b => a * 256 + b) 0

/-! ### SHA-256 (model of `hashlib.sha256`, FIPS 180-4)

The compression function works on the eight 32-bit working variables; the
message schedule is kept as a 512-bit window (sixteen 32-bit words packed
into one `Nat`, the word currently consumed in the top 32 bits), and the
sixty-four round constants are packed into `sha256K` (constant `t` at bits
`32*t`).  All word arithmetic is mod `2^32`. -/

/-- Eight 32-bit SHA-256 working variables. -/
structure Sha256State where
  a : Nat
  b : Nat
  c : Nat
  d : Nat
  e : Nat
  f : Nat
  g : Nat
  h : Nat
  deriving DecidableEq

/-- Right rotation of a 32-bit word. -/
def rotr32 (x n : Nat) : Nat :=
  ((x >>> n) ||| (x <<< (32 - n))) % 4294967296

def sha256K : Nat := 0xc67178f2bef9a3f7a4506ceb90befffa8cc7020884c8781478a5636f748f82ee682e6ff35b9cca4f4ed8aa4a391c0cb334b0bcb52748774c1e376c0819a4c116106aa070f40e3585d6990624d192e819c76c51a3c24b8b70a81a664ba2bfe8a192722c8581c2c92e766a0abb650a735453380d134d2c6dfc2e1b213827b70a851429296706ca6351d5a79147c6e00bf3bf597fc7b00327c8a831c66d983e515276f988da5cb0a9dc4a7484aa2de92c6f240ca1cc0fc19dc6efbe4786e49b69c1c19bf1749bdc06a780deb1fe72be5d74550c7dc3243185be12835b01d807aa98ab1c5ed5923f82a459f111f13956c25be9b5dba5b5c0fbcf71374491428a2f98

def ssig0 (x : Nat) : Nat := (rotr32 x 7) ^^^ (rotr32 x 18) ^^^ (x >>> 3)
def ssig1 (x : Nat) : Nat := (rotr32 x 17) ^^^ (rotr32 x 19) ^^^ (x >>> 10)
def bsig0 (x : Nat) : Nat := (rotr32 x 2) ^^^ (rotr32 x 13) ^^^ (rotr32 x 22)
def bsig1 (x : Nat) : Nat := (rotr32 x 6) ^^^ (rotr32 x 11) ^^^ (rotr32 x 25)
def chf (x y z : Nat) : Nat := (x &&& y) ^^^ ((x ^^^ 4294967295) &&& z)
def majf (x y z : Nat) : Nat := (x &&& y) ^^^ (x &&& z) ^^^ (y &&& z)

/-- Run `n` SHA-256 rounds: `kp` holds the remaining round constants (current
one in the low 32 bits), `w` the 512-bit message-schedule window (current
word in the top 32 bits); the next schedule word is produced by the
`σ1/σ0` recurrence as the window shifts. -/
def sha256Rounds (n kp0 w0 : Nat) (s0 : Sha256State) : Sha256State :=
  Nat.rec (motive := fun _ => Nat → Nat → Sha256State → Sha256State)
    (fun _ _ s => s)
    (fun _ ih kp w s =>
      let wt := w >>> 480
      let t1 := (s.h + bsig1 s.e + chf s.e s.f s.g + (kp &&& 4294967295) + wt) % 4294967296
      let t2 := (bsig0 s.a + majf s.a s.b s.c) % 4294967296
      let nw := (ssig1 ((w >>> 32) &&& 4294967295) + ((w >>> 192) &&& 4294967295) +
                 ssig0 ((w >>> 448) &&& 4294967295) + wt) % 4294967296
      ih (kp >>> 32) (((w <<< 32) &&& (2 ^ 512 - 1)) ||| nw)
        ⟨(t1 + t2) % 4294967296, s.a, s.b, s.c, (s.d + t1) % 4294967296, s.e, s.f, s.g⟩)
    n kp0 w0 s0

/-- One SHA-256 compression: 64 rounds on the 512-bit block `blk`
(big-endian word order), then the feed-forward addition. -/
def sha256Compress (s : Sha256State) (blk : Nat) : Sha256State :=
  let t := sha256Rounds 64 sha256K blk s
  ⟨(s.a + t.a) % 4294967296, (s.b + t.b) % 4294967296, (s.c + t.c) % 4294967296,
   (s.d + t.d) % 4294967296, (s.e + t.e) % 4294967296, (s.f + t.f) % 4294967296,
   (s.g + t.g) % 4294967296, (s.h + t.h) % 4294967296⟩

def sha256Init : Sha256State :=
  ⟨0x6a09e667, 0xbb67ae85, 0x3c6ef372, 0xa54ff53a, 0x510e527f, 0x9b05688c, 0x1f83d9ab, 0x5be0cd19⟩

/-- Length in bytes of a SHA-256-padded message of `len` content bytes:
content, a `0x80` byte, the shortest run of zero bytes making the total a
multiple of 64, and the 8-byte bit length. -/
def shaPadLen (len : Nat) : Nat :=
  len + 1 + ((119 - len % 64) % 64) + 8

/-- The padded message as a big-endian number: the content `msg` (value of
the `len` bytes), then `0x80`, then zeros, then the 64-bit bit length. -/
def shaPadded (len msg : Nat) : Nat :=
  ((msg * 256 + 0x80) <<< (8 * (shaPadLen len - len - 9))) * 2 ^ 64 + 8 * len

/-- Compress `n` 512-bit blocks of the padded message `p`, leftmost block
first (the block at bit offset `512*(n-1)` from the low end is processed
when the fuel is `n`). -/
def sha256Blocks (s0 : Sha256State) (p : Nat) (n : Nat) : Sha256State :=
  Nat.rec (motive := fun _ => Sha256State → Sha256State)
    (fun s => s)
    (fun k ih s => ih (sha256Compress s ((p >>> (512 * k)) &&& (2 ^ 512 - 1))))
    n s0

/-- The eight final hash words as one 256-bit big-endian number. -/
def sha256Out (s : Sha256State) : Nat :=
  ((((((s.a <<< 32 ||| s.b) <<< 32 ||| s.c) <<< 32 ||| s.d) <<< 32
      ||| s.e) <<< 32 ||| s.f) <<< 32 ||| s.g) <<< 32 ||| s.h

/-- SHA-256 of a message given as length plus big-endian value. -/
def sha256Nat (len msg : Nat) : Nat :=
  sha256Out (sha256Blocks sha256Init (shaPadded len msg) (shaPadLen len / 64))

/-- The 32 digest bytes of a 256-bit big-endian digest value. -/
def digestBytes32 (d : Nat) : List Nat :=
  (List.range 32).map (fun i => (d >>> (8 * (31 - i))) % 256)

/-- Model of Python hashlib.sha256(msg).digest(). -/
def sha256Bytes (msg : List Nat) : List Nat :=
  digestBytes32 (sha256Nat msg.length (bytesToNat msg))

/-- Model of Python hmac.new(key, msg, hashlib.sha256).digest() (RFC 2104,
block size 64): hash down an over-long key, zero-pad to 64 bytes, then the
nested ipad/opad hashes. -/
def hmacSha256 (key msg : List Nat) : List Nat :=
  let k0 := if key.length > 64 then sha256Bytes key else key
  let kb := k0 ++ List.replicate (64 - k0.length) 0
  let inner := sha256Bytes ((kb.map (fun b => b ^^^ 0x36)) ++ msg)
  sha256Bytes ((kb.map (fun b => b ^^^ 0x5c)) ++ inner)

end SoC

namespace SoC

/-! ### `bytes.fromhex` (CPython): before each byte any ASCII whitespace is
skipped, then exactly two hex digits are required. -/

/-- Hex digit value, `none` for a non-hex character. -/
def hexVal (c : Char) : Option Nat :=
  if 48 ≤ c.toNat ∧ c.toNat ≤ 57 then some (c.toNat - 48)
  else if 97 ≤ c.toNat ∧ c.toNat ≤ 102 then some (c.toNat - 87)
  else if 65 ≤ c.toNat ∧ c.toNat ≤ 70 then some (c.toNat - 55)
  else none

/-- ASCII whitespace as accepted by `bytes.fromhex`. -/
def isAsciiSpace (c : Char) : Bool :=
  c.toNat = 32 ∨ c.toNat = 9 ∨ c.toNat = 10 ∨ c.toNat = 13 ∨ c.toNat = 11 ∨ c.toNat = 12

/-- Model of Python bytes.fromhex; `none` models the ValueError raised on
a malformed hex string. -/
def fromhex : List Char → Option (List Nat)
  | [] => some []
  | c :: rest =>
    if isAsciiSpace c then fromhex rest
    else
      match rest with
      | [] => none
      | d :: rest2 =>
        match hexVal c, hexVal d with
        | some hi, some lo =>
          match fromhex rest2 with
          | some bs => some ((16 * hi + lo) :: bs)
          | none => none
        | _, _ => none

/-! ### `sign_firmware.py` -/

/-- Typed outcomes of the validation failures (the script prints a
diagnostic and exits; the fields are the quantities it reports). -/
inductive SignError where
  /-- firmware larger than the header offset: actual size, maximum, overflow -/
  | payloadTooLarge (actual limit overflow : Nat)
  /-- decoded key is not 256 bits: provided bits, provided hex chars -/
  | invalidKeyLength (bits hexChars : Nat)
  /-- the key string is not valid hex -/
  | malformedKeyEncoding
  deriving DecidableEq

/-- Fixed payload region size `0xFFC0` (called PAYLOAD_MAX by the spec):
the offset at which the header begins. -/
def header_offset : Nat := 0xFFC0

/-- Model of sign_firmware(firmware, key_hex, version) with the clock
reading (datetime.now().timestamp()) passed in as `timestamp`: size-check,
zero-pad, build the 32-byte header (magic, version, length, entry point,
timestamp, three reserved words), decode and check the key, MAC over
payload ‖ header, append the eight little-endian signature words, and
return payload ‖ header as the signed image. -/
def sign_firmware (firmware_data : List Nat) (key_hex : List Char)
    (version timestamp : Nat) : Except SignError (List Nat) :=
  if firmware_data.length > header_offset then
    .error (.payloadTooLarge firmware_data.length header_offset
      (firmware_data.length - header_offset))
  else
    let padded_fw := firmware_data ++ List.replicate (header_offset - firmware_data.length) 0
    let magic : Nat := 0xDEADBEEF
    let length := padded_fw.length
    let entry_point : Nat := 0x00010000
    let header := le32 magic ++ le32 version ++ le32 length ++ le32 entry_point ++
      le32 timestamp ++ le32 0 ++ le32 0 ++ le32 0
    match fromhex key_hex with
    | none => .error .malformedKeyEncoding
    | some key =>
      if key.length ≠ 32 then
        .error (.invalidKeyLength (key.length * 8) key_hex.length)
      else
        let data_to_sign := padded_fw ++ header
        let mac := hmacSha256 key data_to_sign
        let signature_words := (List.range 8).map (fun i => readLE32 mac (i * 4))
        let signed_header := header ++ signature_words.flatMap le32
        .ok (padded_fw ++ signed_header)

/-! ### `bin2hex.py` and `make_imem.py` -/

/-- Lowercase hex digit. -/
def hexDigit (n : Nat) : Char :=
  if n < 10 then Char.ofNat (48 + n) else Char.ofNat (87 + n)

/-- Format a word value as Python does with format spec 08x (for
`v < 2 ^ 32`): eight lowercase hex digits. -/
def hex8 (v : Nat) : String :=
  String.mk ((List.range 8).map (fun i => hexDigit ((v >>> (4 * (7 - i))) % 16)))

/-- Word assembly of bin2hex.py:
`data[i] | data[i+1] << 8 | data[i+2] << 16 | data[i+3] << 24`
(out-of-range reads as zero, which only the zero padding exercises). -/
def orLE32 (m : List Nat) (i : Nat) : Nat :=
  m.getD i 0 ||| (m.getD (i + 1) 0 <<< 8) ||| (m.getD (i + 2) 0 <<< 16) |||
    (m.getD (i + 3) 0 <<< 24)

/-- Model of bin2hex(data, num_words): the list of output lines.  The data is
padded to a word boundary; one `%08x` line per data word whose index is
below `num_words`, then `"00000000"` lines from `actual_words` up to
`num_words`. -/
def bin2hex (data : List Nat) (num_words? : Option Nat) : List String :=
  let data2 := if data.length % 4 ≠ 0
    then data ++ List.replicate (4 - data.length % 4) 0 else data
  let actual_words := data2.length / 4
  let num_words := num_words?.getD actual_words
  ((List.range actual_words).filterMap (fun j =>
      if j < num_words then some (hex8 (orLE32 data2 (4 * j))) else none)) ++
    List.replicate (num_words - actual_words) "00000000"

/-- Model of Python int.from_bytes(w, byteorder=little) for the
(zero-extended) 4-byte chunk at offset `i`. -/
def fromBytesLE (m : List Nat) (i : Nat) : Nat :=
  m.getD i 0 + 256 * m.getD (i + 1) 0 + 65536 * m.getD (i + 2) 0 +
    16777216 * m.getD (i + 3) 0

/-- Model of make_imem.py: one indexed memory-assignment line per 4-byte
chunk (the final chunk zero-padded); `Char.ofNat 39` is the apostrophe of
the Verilog width prefix in the emitted text. -/
def make_imem (b : List Nat) : List String :=
  (List.range ((b.length + 3) / 4)).map (fun j =>
    "    memory[" ++ toString j ++ "] = 32" ++ String.mk [Char.ofNat 39] ++ "h" ++
      hex8 (fromBytesLE b (4 * j)) ++ ";")

/-! ### Derived descriptions used by the statements below -/

/-- The 32-byte header `sign_firmware` builds before the signature is
appended (its `length` field is always the padded size, i.e.
`header_offset`). -/
def unsignedHeader (version timestamp : Nat) : List Nat :=
  le32 0xDEADBEEF ++ le32 version ++ le32 header_offset ++ le32 0x00010000 ++
    le32 timestamp ++ le32 0 ++ le32 0 ++ le32 0

/-- The padded word count `bin2hex`/`make_imem` produce for an input of
`n` bytes. -/
def wordCount (n : Nat) : Nat := (n + 3) / 4

/-- Input of `bin2hex` after padding to a word boundary. -/
def padTo4 (data : List Nat) : List Nat :=
  if data.length % 4 ≠ 0 then data ++ List.replicate (4 - data.length % 4) 0 else data

/-! ### The concrete signing instance used for the counterexamples

Payload empty, version 1, clock reading 0, key = 32 zero bytes (hex string
of 64 zero-digit characters).  `cexValA`/`cexValB` are the big-endian values of
the two inner HMAC hash inputs: ipad block ‖ payload ‖ header without
signature field (65568 bytes), respectively ipad block ‖ payload ‖ header
with zeroed signature field (65600 bytes); the two SHA-256 messages agree
on their first 1024 blocks, and `cexMid` is the (independently computed)
chaining state after those blocks, proved correct in `cex_mid` below. -/

def cexKeyHex : List Char := List.replicate 64 (Char.ofNat 48)

def cexValA : Nat :=
  bytesToNat (List.replicate 64 0x36) * 256 ^ 65504 + bytesToNat (unsignedHeader 1 0)

def cexValB : Nat :=
  bytesToNat (List.replicate 64 0x36) * 256 ^ 65536 + bytesToNat (unsignedHeader 1 0) * 256 ^ 32

def cexPA : Nat := shaPadded 65568 cexValA

def cexPB : Nat := shaPadded 65600 cexValB

/-- The shared message prefix, as a padded-message value: `cexPA` with its
last block removed (the first 1024 of its 1025 blocks). -/
def cexQ : Nat := cexPA >>> 512

def cexMid : Sha256State :=
  ⟨0x92701880, 0xf31df081, 0x3404a810, 0x3ab5d913,
   0x6ad92ba2, 0xa93bb33f, 0x90cc9a99, 0xcfadacc0⟩

/-! Intermediate chaining states after 128, 256, ..., 896 of those 1024
blocks; splitting the long compression into eight 128-block runs keeps each
kernel evaluation small. -/

def cexMid1 : Sha256State :=
  ⟨0xaff3edc0, 0xe5fc997d, 0x19764bc7, 0x7af192b8,
   0x3175a8df, 0xd4c660e3, 0x68e4792b, 0xc2e72887⟩

def cexMid2 : Sha256State :=
  ⟨0x1b2d8236, 0x361ff4c1, 0xe7bc489c, 0x62a08abe,
   0x539f51cd, 0x44bbaf74, 0xa5dad52c, 0x08b0dc29⟩

def cexMid3 : Sha256State :=
  ⟨0xf2dfcfa2, 0x11ca78f9, 0x07d42dfc, 0x25ed2f6b,
   0x4e28f513, 0x8385ee8b, 0x2a2a5e42, 0xf2356c1a⟩

def cexMid4 : Sha256State :=
  ⟨0x45581971, 0x18ba4743, 0x6c0b9855, 0xbe6105e3,
   0x1b85c8e3, 0xa9bfac98, 0xfd91e0ee, 0x7c5e709b⟩

def cexMid5 : Sha256State :=
  ⟨0x876838b3, 0xdac046a7, 0xb6975b96, 0x814450fd,
   0x46577dee, 0x85325001, 0x685910f4, 0x5b2f2ac4⟩

def cexMid6 : Sha256State :=
  ⟨0x672a4d84, 0x8fa9b737, 0xad4ccdf7, 0x51420da5,
   0xdfc1d8f3, 0x8f2f1b63, 0x1720476f, 0x6d2bcef6⟩

def cexMid7 : Sha256State :=
  ⟨0xef889485, 0x697dae04, 0x689d8db5, 0x08aa51fa,
   0x63b3a5a6, 0x4358f97a, 0x3409b848, 0xdb1c324b⟩

/-- Does the result report an `InvalidKeyLength` failure? -/
def isInvalidKeyLength : Except SignError (List Nat) → Bool
  | .error (.invalidKeyLength _ _) => true
  | _ => false

end SoC

namespace SoC

/-! ## General lemmas about the primitives -/

theorem length_le32 (w : Nat) : (le32 w).length = 4 := rfl

theorem foldl_byte (l : List Nat) : ∀ a : Nat,
    l.foldl (fun a b => a * 256 + b) a = a * 256 ^ l.length + bytesToNat l := by
  induction l with
  | nil => intro a; simp [bytesToNat]
  | cons b l ih =>
    intro a
    rw [List.foldl_cons, ih]
    have hb : bytesToNat (b :: l) = b * 256 ^ l.length + bytesToNat l := by
      show List.foldl (fun a b => a * 256 + b) (0 * 256 + b) l = _
      rw [ih]; ring
    rw [hb, List.length_cons]; ring

theorem bytesToNat_append (xs ys : List Nat) :
    bytesToNat (xs ++ ys) = bytesToNat xs * 256 ^ ys.length + bytesToNat ys := by
  simp only [bytesToNat]
  rw [List.foldl_append, foldl_byte]
  rfl

theorem bytesToNat_replicate_zero (n : Nat) : bytesToNat (List.replicate n 0) = 0 := by
  induction n with
  | zero => rfl
  | succ n ih => rw [List.replicate_succ]; exact ih

theorem sha256Blocks_succ (s : Sha256State) (p n : Nat) :
    sha256Blocks s p (n + 1) =
      sha256Blocks (sha256Compress s ((p >>> (512 * n)) &&& (2 ^ 512 - 1))) p n := rfl

/-- Splitting a block run: the first `a` blocks of a `(a+b)`-block message
are the blocks of the message shifted right past its last `b` blocks. -/
theorem sha256Blocks_split (s : Sha256State) (p a b : Nat) :
    sha256Blocks s p (a + b) =
      sha256Blocks (sha256Blocks s (p >>> (512 * b)) a) p b := by
  induction a generalizing s with
  | zero => rw [Nat.zero_add]; rfl
  | succ a ih =>
    have h1 : a + 1 + b = (a + b) + 1 := by omega
    have h2 : (p >>> (512 * b)) >>> (512 * a) = p >>> (512 * (a + b)) := by
      rw [← Nat.shiftRight_add]; congr 1; ring
    rw [h1, sha256Blocks_succ, ih, sha256Blocks_succ, h2]

theorem le32_bytes (b0 b1 b2 b3 : Nat)
    (h0 : b0 < 256) (h1 : b1 < 256) (h2 : b2 < 256) (h3 : b3 < 256) :
    le32 (b0 + 256 * b1 + 65536 * b2 + 16777216 * b3) = [b0, b1, b2, b3] := by
  unfold le32
  rw [Nat.shiftRight_eq_div_pow, Nat.shiftRight_eq_div_pow, Nat.shiftRight_eq_div_pow]
  have e0 : (b0 + 256 * b1 + 65536 * b2 + 16777216 * b3) % 256 = b0 := by omega
  have e1 : (b0 + 256 * b1 + 65536 * b2 + 16777216 * b3) / 2 ^ 8 % 256 = b1 := by omega
  have e2 : (b0 + 256 * b1 + 65536 * b2 + 16777216 * b3) / 2 ^ 16 % 256 = b2 := by omega
  have e3 : (b0 + 256 * b1 + 65536 * b2 + 16777216 * b3) / 2 ^ 24 % 256 = b3 := by omega
  rw [e0, e1, e2, e3]

theorem le32_readLE32_getD (m : List Nat) (i : Nat)
    (h0 : m.getD i 0 < 256) (h1 : m.getD (i + 1) 0 < 256)
    (h2 : m.getD (i + 2) 0 < 256) (h3 : m.getD (i + 3) 0 < 256) :
    le32 (readLE32 m i) = [m.getD i 0, m.getD (i + 1) 0, m.getD (i + 2) 0, m.getD (i + 3) 0] :=
  le32_bytes _ _ _ _ h0 h1 h2 h3

end SoC

namespace SoC

/-- Unpacking the digest into eight little-endian words and re-packing
each word little-endian is the identity on the 32 digest bytes. -/
theorem flatMap_le32_digest (d : Nat) :
    ((List.range 8).map (fun i => readLE32 (digestBytes32 d) (i * 4))).flatMap le32 =
      digestBytes32 d := by
  have h : ∀ k : Nat, d >>> k % 256 < 256 := fun k => Nat.mod_lt _ (by norm_num)
  show le32 (readLE32 (digestBytes32 d) 0) ++
      (le32 (readLE32 (digestBytes32 d) 4) ++
      (le32 (readLE32 (digestBytes32 d) 8) ++
      (le32 (readLE32 (digestBytes32 d) 12) ++
      (le32 (readLE32 (digestBytes32 d) 16) ++
      (le32 (readLE32 (digestBytes32 d) 20) ++
      (le32 (readLE32 (digestBytes32 d) 24) ++
      (le32 (readLE32 (digestBytes32 d) 28) ++ []))))))) = digestBytes32 d
  rw [le32_readLE32_getD (digestBytes32 d) 0 (h 248) (h 240) (h 232) (h 224),
      le32_readLE32_getD (digestBytes32 d) 4 (h 216) (h 208) (h 200) (h 192),
      le32_readLE32_getD (digestBytes32 d) 8 (h 184) (h 176) (h 168) (h 160),
      le32_readLE32_getD (digestBytes32 d) 12 (h 152) (h 144) (h 136) (h 128),
      le32_readLE32_getD (digestBytes32 d) 16 (h 120) (h 112) (h 104) (h 96),
      le32_readLE32_getD (digestBytes32 d) 20 (h 88) (h 80) (h 72) (h 64),
      le32_readLE32_getD (digestBytes32 d) 24 (h 56) (h 48) (h 40) (h 32),
      le32_readLE32_getD (digestBytes32 d) 28 (h 24) (h 16) (h 8) (h 0)]
  rfl

/-- Every HMAC value is the byte expansion of some 256-bit digest value. -/
theorem hmac_digest (key msg : List Nat) : ∃ d, hmacSha256 key msg = digestBytes32 d :=
  ⟨_, rfl⟩

theorem flatMap_le32_hmac (key msg : List Nat) :
    ((List.range 8).map (fun i => readLE32 (hmacSha256 key msg) (i * 4))).flatMap le32 =
      hmacSha256 key msg := by
  obtain ⟨d, hd⟩ := hmac_digest key msg
  rw [hd]
  exact flatMap_le32_digest d

theorem hmac_length (key msg : List Nat) : (hmacSha256 key msg).length = 32 := by
  obtain ⟨d, hd⟩ := hmac_digest key msg
  rw [hd]
  rfl

theorem unsignedHeader_length (v t : Nat) : (unsignedHeader v t).length = 32 := rfl

theorem padded_length (fw : List Nat) (h : fw.length ≤ header_offset) :
    (fw ++ List.replicate (header_offset - fw.length) 0).length = header_offset := by
  simp only [List.length_append, List.length_replicate]
  omega

/-- The success path of `sign_firmware`: with an in-range payload and a
well-formed 32-byte key the result is
`padded-payload ‖ header ‖ HMAC(key, padded-payload ‖ header)`. -/
theorem sign_firmware_ok (fw : List Nat) (key_hex : List Char) (v t : Nat) (key : List Nat)
    (hfw : fw.length ≤ header_offset) (hkh : fromhex key_hex = some key)
    (hk : key.length = 32) :
    sign_firmware fw key_hex v t =
      .ok (((fw ++ List.replicate (header_offset - fw.length) 0) ++ unsignedHeader v t) ++
        hmacSha256 key
          ((fw ++ List.replicate (header_offset - fw.length) 0) ++ unsignedHeader v t)) := by
  unfold sign_firmware
  rw [if_neg (by omega), hkh]
  dsimp only
  rw [if_neg (fun hne => hne hk)]
  rw [padded_length fw hfw]
  rw [show le32 0xDEADBEEF ++ le32 v ++ le32 header_offset ++ le32 0x00010000 ++ le32 t ++
      le32 0 ++ le32 0 ++ le32 0 = unsignedHeader v t from rfl]
  rw [flatMap_le32_hmac key
    ((fw ++ List.replicate (header_offset - fw.length) 0) ++ unsignedHeader v t)]
  rw [← List.append_assoc]

end SoC

namespace SoC

theorem drop_offset {α : Type} (l₁ l₂ : List α) (n m : Nat) (h : l₁.length = n) :
    (l₁ ++ l₂).drop (n + m) = l₂.drop m := by
  rw [← List.drop_drop, List.drop_left' h]

theorem drop4_le32 (w : Nat) (rest : List Nat) : (le32 w ++ rest).drop 4 = rest :=
  List.drop_left' (length_le32 w)

theorem take4_le32 (w : Nat) (rest : List Nat) : (le32 w ++ rest).take 4 = le32 w :=
  List.take_left' (length_le32 w)

/-- C3: for every payload of length at most `PAYLOAD_MAX` (`header_offset`,
0xFFC0 bytes) and every hex key decoding to exactly 32 bytes, signing
succeeds and the signed image has length exactly `PAYLOAD_MAX + 64 = 65536`
bytes, independent of the payload length. -/
theorem C3_image_size (fw : List Nat) (key_hex : List Char) (v t : Nat) (key : List Nat)
    (hfw : fw.length ≤ header_offset) (hkh : fromhex key_hex = some key)
    (hk : key.length = 32) :
    ∃ img, sign_firmware fw key_hex v t = .ok img ∧ img.length = header_offset + 64 := by
  refine ⟨_, sign_firmware_ok fw key_hex v t key hfw hkh hk, ?_⟩
  rw [List.length_append, List.length_append, padded_length fw hfw, unsignedHeader_length,
    hmac_length]

theorem C3_witness :
    ([] : List Nat).length ≤ header_offset ∧
    fromhex cexKeyHex = some (List.replicate 32 0) ∧
    (List.replicate 32 (0 : Nat)).length = 32 ∧
    (∃ img, sign_firmware [] cexKeyHex 1 0 = .ok img ∧ img.length = header_offset + 64) :=
  ⟨by decide, by decide, by decide,
   C3_image_size [] cexKeyHex 1 0 (List.replicate 32 0) (by decide) (by decide) (by decide)⟩

/-- C4: a payload strictly larger than `PAYLOAD_MAX` is rejected with
`PayloadTooLarge` reporting the actual size, the limit and the overflow
`L - PAYLOAD_MAX` (so no image is produced), while a payload of length
exactly `PAYLOAD_MAX` signs successfully with a valid key. -/
theorem C4_payload_bound :
    (∀ (fw : List Nat) (key_hex : List Char) (v t : Nat),
        fw.length > header_offset →
        sign_firmware fw key_hex v t =
          .error (.payloadTooLarge fw.length header_offset (fw.length - header_offset))) ∧
    (∀ (fw : List Nat) (key_hex : List Char) (v t : Nat) (key : List Nat),
        fw.length = header_offset → fromhex key_hex = some key → key.length = 32 →
        ∃ img, sign_firmware fw key_hex v t = .ok img) := by
  constructor
  · intro fw key_hex v t h
    unfold sign_firmware
    rw [if_pos h]
  · intro fw key_hex v t key h hkh hk
    exact ⟨_, sign_firmware_ok fw key_hex v t key (le_of_eq h) hkh hk⟩

theorem C4_witness :
    (List.replicate (header_offset + 1) (0 : Nat)).length > header_offset ∧
    sign_firmware (List.replicate (header_offset + 1) 0) cexKeyHex 1 0 =
      .error (.payloadTooLarge (List.replicate (header_offset + 1) (0 : Nat)).length
        header_offset ((List.replicate (header_offset + 1) (0 : Nat)).length - header_offset)) ∧
    (List.replicate header_offset (0 : Nat)).length = header_offset ∧
    (∃ img, sign_firmware (List.replicate header_offset 0) cexKeyHex 1 0 = .ok img) :=
  ⟨by simp, C4_payload_bound.1 _ cexKeyHex 1 0 (by simp),
   by simp,
   C4_payload_bound.2 _ cexKeyHex 1 0 (List.replicate 32 0) (by simp) (by decide) (by decide)⟩

/-- C7: signing is a pure function of the tuple
`(payload, key, version, timestamp)`: equal inputs give byte-identical
results; no randomness enters the computation (the clock reading is an
explicit input). -/
theorem C7_determinism (p p2 : List Nat) (k k2 : List Char) (v v2 t t2 : Nat)
    (hp : p = p2) (hk : k = k2) (hv : v = v2) (ht : t = t2) :
    sign_firmware p k v t = sign_firmware p2 k2 v2 t2 := by
  subst hp hk hv ht
  rfl

theorem C7_witness :
    [(1 : Nat)] = [1] ∧ cexKeyHex = cexKeyHex ∧ (2 : Nat) = 2 ∧ (3 : Nat) = 3 ∧
    sign_firmware [1] cexKeyHex 2 3 = sign_firmware [1] cexKeyHex 2 3 :=
  ⟨rfl, rfl, rfl, rfl, C7_determinism [1] [1] cexKeyHex cexKeyHex 2 2 3 3 rfl rfl rfl rfl⟩

/-- C8: the MAC digest is split into eight 32-bit words by little-endian
unpacking of consecutive 4-byte groups, the words are serialized back
little-endian into the signature field, and consequently the 32 signature
bytes of the signed image equal the HMAC-SHA256 digest byte for byte. -/
theorem C8_signature_words (fw : List Nat) (key_hex : List Char) (v t : Nat) (key : List Nat)
    (hfw : fw.length ≤ header_offset) (hkh : fromhex key_hex = some key)
    (hk : key.length = 32) :
    ∃ img, sign_firmware fw key_hex v t = .ok img ∧
      img.drop (header_offset + 32) =
        ((List.range 8).map (fun i => readLE32
            (hmacSha256 key
              ((fw ++ List.replicate (header_offset - fw.length) 0) ++ unsignedHeader v t))
            (i * 4))).flatMap le32 ∧
      img.drop (header_offset + 32) =
        hmacSha256 key
          ((fw ++ List.replicate (header_offset - fw.length) 0) ++ unsignedHeader v t) := by
  refine ⟨_, sign_firmware_ok fw key_hex v t key hfw hkh hk, ?_, ?_⟩
  · rw [List.append_assoc, drop_offset _ _ header_offset 32 (padded_length fw hfw),
      List.drop_left' (unsignedHeader_length v t), flatMap_le32_hmac]
  · rw [List.append_assoc, drop_offset _ _ header_offset 32 (padded_length fw hfw),
      List.drop_left' (unsignedHeader_length v t)]

theorem C8_witness :
    ([] : List Nat).length ≤ header_offset ∧
    fromhex cexKeyHex = some (List.replicate 32 0) ∧
    (List.replicate 32 (0 : Nat)).length = 32 ∧
    (∃ img, sign_firmware [] cexKeyHex 1 0 = .ok img ∧
      img.drop (header_offset + 32) =
        ((List.range 8).map (fun i => readLE32
            (hmacSha256 (List.replicate 32 0)
              (([] ++ List.replicate (header_offset - List.length ([] : List Nat)) 0) ++
                unsignedHeader 1 0))
            (i * 4))).flatMap le32 ∧
      img.drop (header_offset + 32) =
        hmacSha256 (List.replicate 32 0)
          (([] ++ List.replicate (header_offset - List.length ([] : List Nat)) 0) ++
            unsignedHeader 1 0)) :=
  ⟨by decide, by decide, by decide,
   C8_signature_words [] cexKeyHex 1 0 (List.replicate 32 0) (by decide) (by decide) (by decide)⟩

end SoC

namespace SoC

theorem sha256Bytes_eq (l : List Nat) :
    sha256Bytes l = digestBytes32 (sha256Nat l.length (bytesToNat l)) := rfl

/-- HMAC with the all-zero 32-byte key: the padded key block is 64 zero
bytes, so the ipad/opad blocks are 64 copies of `0x36`/`0x5c`. -/
theorem hmac_zero_key (msg : List Nat) :
    hmacSha256 (List.replicate 32 0) msg =
      sha256Bytes (List.replicate 64 0x5c ++ sha256Bytes (List.replicate 64 0x36 ++ msg)) := by
  unfold hmacSha256
  rw [if_neg (by decide)]
  dsimp only
  have h1 : List.map (fun b => b ^^^ 0x36)
      (List.replicate 32 (0 : Nat) ++ List.replicate (64 - (List.replicate 32 (0 : Nat)).length) 0) =
      List.replicate 64 0x36 := by decide
  have h2 : List.map (fun b => b ^^^ 0x5c)
      (List.replicate 32 (0 : Nat) ++ List.replicate (64 - (List.replicate 32 (0 : Nat)).length) 0) =
      List.replicate 64 0x5c := by decide
  rw [h1, h2]

theorem cexQ_eq : cexPA >>> (512 * 1) = cexQ := by
  unfold cexQ
  have h : (512 * 1 : Nat) = 512 := rfl
  rw [h]

set_option maxRecDepth 100000 in
theorem cex_mid_1 :
    sha256Blocks sha256Init (cexQ >>> (512 * 896)) 128 = cexMid1 := by
  decide!

set_option maxRecDepth 100000 in
theorem cex_mid_2 :
    sha256Blocks cexMid1 (cexQ >>> (512 * 768)) 128 = cexMid2 := by
  decide!

set_option maxRecDepth 100000 in
theorem cex_mid_3 :
    sha256Blocks cexMid2 (cexQ >>> (512 * 640)) 128 = cexMid3 := by
  decide!

set_option maxRecDepth 100000 in
theorem cex_mid_4 :
    sha256Blocks cexMid3 (cexQ >>> (512 * 512)) 128 = cexMid4 := by
  decide!

set_option maxRecDepth 100000 in
theorem cex_mid_5 :
    sha256Blocks cexMid4 (cexQ >>> (512 * 384)) 128 = cexMid5 := by
  decide!

set_option maxRecDepth 100000 in
theorem cex_mid_6 :
    sha256Blocks cexMid5 (cexQ >>> (512 * 256)) 128 = cexMid6 := by
  decide!

set_option maxRecDepth 100000 in
theorem cex_mid_7 :
    sha256Blocks cexMid6 (cexQ >>> (512 * 128)) 128 = cexMid7 := by
  decide!

set_option maxRecDepth 100000 in
theorem cex_mid_8 :
    sha256Blocks cexMid7 cexQ 128 = cexMid := by
  decide!

/-- The chaining state shared by the two counterexample hashes: both inner
SHA-256 messages agree on their first 1024 blocks (ipad block, then the
all-zero padded payload, then most of the header), and compressing them
from the initial state yields `cexMid`.  Assembled from the eight 128-block
runs via `sha256Blocks_split`. -/
theorem cex_mid : sha256Blocks sha256Init cexQ 1024 = cexMid := by
  have e1 : (1024 : Nat) = 128 + 896 := rfl
  have e2 : (896 : Nat) = 128 + 768 := rfl
  have e3 : (768 : Nat) = 128 + 640 := rfl
  have e4 : (640 : Nat) = 128 + 512 := rfl
  have e5 : (512 : Nat) = 128 + 384 := rfl
  have e6 : (384 : Nat) = 128 + 256 := rfl
  have e7 : (256 : Nat) = 128 + 128 := rfl
  rw [e1, sha256Blocks_split, cex_mid_1,
      e2, sha256Blocks_split, cex_mid_2,
      e3, sha256Blocks_split, cex_mid_3,
      e4, sha256Blocks_split, cex_mid_4,
      e5, sha256Blocks_split, cex_mid_5,
      e6, sha256Blocks_split, cex_mid_6,
      e7, sha256Blocks_split, cex_mid_7,
      cex_mid_8]

theorem cex_innerA :
    sha256Nat 65568 cexValA =
      0xde95517edbb5080756ffffccb595e3c586843fe4ca355c49ff5611969b750e27 := by
  rw [show sha256Nat 65568 cexValA = sha256Out (sha256Blocks sha256Init cexPA (1024 + 1))
    from rfl]
  rw [sha256Blocks_split sha256Init cexPA 1024 1, cexQ_eq, cex_mid]
  decide!

theorem cex_shift : cexPB >>> (512 * 2) = cexPA >>> (512 * 1) := by decide!

theorem cex_innerB :
    sha256Nat 65600 cexValB =
      0x99e3587db48653a37eec3f2f855030c70a952be75c392c254d7a6c1b2c47a5f7 := by
  rw [show sha256Nat 65600 cexValB = sha256Out (sha256Blocks sha256Init cexPB (1024 + 2))
    from rfl]
  rw [sha256Blocks_split sha256Init cexPB 1024 2, cex_shift, cexQ_eq, cex_mid]
  decide!

end SoC

namespace SoC

theorem cex_hmA :
    hmacSha256 (List.replicate 32 0) (List.replicate header_offset 0 ++ unsignedHeader 1 0) =
      [0xef, 0x3f, 0x89, 0xab, 0x01, 0x89, 0xbd, 0x98, 0xf2, 0x03, 0x08, 0x67, 0x23, 0x44,
       0xf9, 0x79, 0xb2, 0xf9, 0x2c, 0x32, 0xbb, 0x15, 0xeb, 0xda, 0x9f, 0xde, 0x46, 0x4a,
       0xed, 0xf0, 0x3d, 0x8d] := by
  rw [hmac_zero_key]
  have hlen : (List.replicate 64 0x36 ++
      (List.replicate header_offset 0 ++ unsignedHeader 1 0)).length = 65568 := by
    rw [List.length_append, List.length_append, List.length_replicate, List.length_replicate,
      unsignedHeader_length]
    decide
  have hval : bytesToNat (List.replicate 64 0x36 ++
      (List.replicate header_offset 0 ++ unsignedHeader 1 0)) = cexValA := by
    have e1 : (List.replicate header_offset (0 : Nat) ++ unsignedHeader 1 0).length = 65504 := by
      rw [List.length_append, List.length_replicate, unsignedHeader_length]
      decide
    rw [bytesToNat_append, bytesToNat_append, bytesToNat_replicate_zero]
    rw [e1, Nat.zero_mul, Nat.zero_add]
    rfl
  rw [sha256Bytes_eq (List.replicate 64 0x36 ++
      (List.replicate header_offset 0 ++ unsignedHeader 1 0)), hlen, hval, cex_innerA]
  decide!

theorem cex_hmB :
    hmacSha256 (List.replicate 32 0)
        (List.replicate header_offset 0 ++ (unsignedHeader 1 0 ++ List.replicate 32 0)) =
      [0x69, 0x32, 0x0c, 0xee, 0x4b, 0x36, 0x5a, 0xb9, 0x61, 0xb6, 0xa4, 0x4e, 0x9a, 0xb0,
       0x99, 0xab, 0x1a, 0x9a, 0x29, 0x70, 0x9b, 0x49, 0xfd, 0xa4, 0x7c, 0x57, 0x71, 0x7b,
       0x7c, 0x26, 0xde, 0xa4] := by
  rw [hmac_zero_key]
  have hlen : (List.replicate 64 0x36 ++
      (List.replicate header_offset 0 ++ (unsignedHeader 1 0 ++ List.replicate 32 0))).length =
      65600 := by
    rw [List.length_append, List.length_append, List.length_append, List.length_replicate,
      List.length_replicate, List.length_replicate, unsignedHeader_length]
    decide
  have hval : bytesToNat (List.replicate 64 0x36 ++
      (List.replicate header_offset 0 ++ (unsignedHeader 1 0 ++ List.replicate 32 0))) =
      cexValB := by
    have e1 : (List.replicate header_offset (0 : Nat) ++
        (unsignedHeader 1 0 ++ List.replicate 32 0)).length = 65536 := by
      rw [List.length_append, List.length_append, List.length_replicate,
        List.length_replicate, unsignedHeader_length]
      decide
    have e2 : (unsignedHeader 1 0 ++ List.replicate 32 (0 : Nat)).length = 64 := by
      rw [List.length_append, List.length_replicate, unsignedHeader_length]
    have e3 : (List.replicate 32 (0 : Nat)).length = 32 := List.length_replicate 32 0
    rw [bytesToNat_append, bytesToNat_append, bytesToNat_append,
      bytesToNat_replicate_zero, bytesToNat_replicate_zero]
    rw [e1, e2, e3, Nat.zero_mul, Nat.zero_add, Nat.add_zero]
    rfl
  rw [sha256Bytes_eq (List.replicate 64 0x36 ++
      (List.replicate header_offset 0 ++ (unsignedHeader 1 0 ++ List.replicate 32 0))),
    hlen, hval, cex_innerB]
  decide!

end SoC

namespace SoC

/-- C1 (amended): the embedded signature is
`HMAC_SHA256(key, padded_payload ‖ unsigned_header)` where the unsigned
header is the 32-byte serialization without the signature field, so the
MAC input is exactly `PAYLOAD_MAX + 32` bytes. -/
theorem C1_mac_input (fw : List Nat) (key_hex : List Char) (v t : Nat) (key : List Nat)
    (hfw : fw.length ≤ header_offset) (hkh : fromhex key_hex = some key)
    (hk : key.length = 32) :
    ∃ img, sign_firmware fw key_hex v t = .ok img ∧
      img.drop (header_offset + 32) =
        hmacSha256 key
          ((fw ++ List.replicate (header_offset - fw.length) 0) ++ unsignedHeader v t) ∧
      ((fw ++ List.replicate (header_offset - fw.length) 0) ++ unsignedHeader v t).length =
        header_offset + 32 := by
  refine ⟨_, sign_firmware_ok fw key_hex v t key hfw hkh hk, ?_, ?_⟩
  · rw [List.append_assoc, drop_offset _ _ header_offset 32 (padded_length fw hfw),
      List.drop_left' (unsignedHeader_length v t)]
  · rw [List.length_append, padded_length fw hfw, unsignedHeader_length]

theorem C1_witness :
    ([] : List Nat).length ≤ header_offset ∧
    fromhex cexKeyHex = some (List.replicate 32 0) ∧
    (List.replicate 32 (0 : Nat)).length = 32 ∧
    (∃ img, sign_firmware [] cexKeyHex 1 0 = .ok img ∧
      img.drop (header_offset + 32) =
        hmacSha256 (List.replicate 32 0)
          (([] ++ List.replicate (header_offset - List.length ([] : List Nat)) 0) ++
            unsignedHeader 1 0) ∧
      (([] ++ List.replicate (header_offset - List.length ([] : List Nat)) 0) ++
          unsignedHeader 1 0).length = header_offset + 32) :=
  ⟨by decide, by decide, by decide,
   C1_mac_input [] cexKeyHex 1 0 (List.replicate 32 0) (by decide) (by decide) (by decide)⟩

/-- C1 counterexample: at the concrete instance (empty payload, version 1,
timestamp 0, all-zero 32-byte key) the embedded signature is not the MAC
over payload ‖ 64-byte-header-with-zeroed-signature-field: the script MACs
over the 32-byte header without the signature slot. -/
theorem C1_counterexample :
    (sign_firmware [] cexKeyHex 1 0).map (fun img => img.drop (header_offset + 32)) ≠
      Except.ok (hmacSha256 (List.replicate 32 0)
        (List.replicate header_offset 0 ++ (unsignedHeader 1 0 ++ List.replicate 32 0))) := by
  rw [sign_firmware_ok [] cexKeyHex 1 0 (List.replicate 32 0) (by decide) (by decide)
    (by decide)]
  simp only [Except.map, List.nil_append, List.length_nil, Nat.sub_zero]
  rw [List.append_assoc, drop_offset _ _ header_offset 32 ?hp,
    List.drop_left' (unsignedHeader_length 1 0), cex_hmA, cex_hmB]
  case hp => rw [List.length_replicate]
  intro h
  exact absurd (Except.ok.inj h) (by decide)

end SoC

namespace SoC

/-- C2 (amended): splitting a signed image into its `PAYLOAD_MAX`-byte
payload and header, recomputing the MAC over payload ‖ first-32-header-bytes
(the signature field removed, not zeroed) reproduces the embedded
signature. -/
theorem C2_roundtrip (fw : List Nat) (key_hex : List Char) (v t : Nat) (key : List Nat)
    (hfw : fw.length ≤ header_offset) (hkh : fromhex key_hex = some key)
    (hk : key.length = 32) :
    ∃ img, sign_firmware fw key_hex v t = .ok img ∧
      hmacSha256 key (img.take header_offset ++ (img.drop header_offset).take 32) =
        img.drop (header_offset + 32) := by
  refine ⟨_, sign_firmware_ok fw key_hex v t key hfw hkh hk, ?_⟩
  rw [List.append_assoc, List.take_left' (padded_length fw hfw),
    List.drop_left' (padded_length fw hfw), List.take_left' (unsignedHeader_length v t),
    drop_offset _ _ header_offset 32 (padded_length fw hfw),
    List.drop_left' (unsignedHeader_length v t)]

theorem C2_witness :
    ([] : List Nat).length ≤ header_offset ∧
    fromhex cexKeyHex = some (List.replicate 32 0) ∧
    (List.replicate 32 (0 : Nat)).length = 32 ∧
    (∃ img, sign_firmware [] cexKeyHex 1 0 = .ok img ∧
      hmacSha256 (List.replicate 32 0)
          (img.take header_offset ++ (img.drop header_offset).take 32) =
        img.drop (header_offset + 32)) :=
  ⟨by decide, by decide, by decide,
   C2_roundtrip [] cexKeyHex 1 0 (List.replicate 32 0) (by decide) (by decide) (by decide)⟩

/-- C2 counterexample: on the image signed with the all-zero key, empty
payload, version 1, timestamp 0, the round-trip check of the spec — re-MAC over
payload ‖ header-with-zeroed-signature-field (64 header bytes) — does not
reproduce the embedded signature. -/
theorem C2_counterexample :
    (sign_firmware [] cexKeyHex 1 0).map (fun img =>
        hmacSha256 (List.replicate 32 0)
          (img.take header_offset ++
            ((img.drop header_offset).take 32 ++ List.replicate 32 0))) ≠
      (sign_firmware [] cexKeyHex 1 0).map (fun img => img.drop (header_offset + 32)) := by
  rw [sign_firmware_ok [] cexKeyHex 1 0 (List.replicate 32 0) (by decide) (by decide)
    (by decide)]
  simp only [Except.map, List.nil_append, List.length_nil, Nat.sub_zero]
  have hp : (List.replicate header_offset (0 : Nat)).length = header_offset := by
    rw [List.length_replicate]
  rw [List.append_assoc, List.take_left' hp, List.drop_left' hp,
    List.take_left' (unsignedHeader_length 1 0), drop_offset _ _ header_offset 32 hp,
    List.drop_left' (unsignedHeader_length 1 0), cex_hmA, cex_hmB]
  intro h
  exact absurd (Except.ok.inj h) (by decide)

end SoC

namespace SoC


/-- C5 (amended): for payloads within the size limit, a key decoding to a
length other than 32 bytes fails with `InvalidKeyLength` (reporting the
provided bits and hex-character count, before any MAC is computed), an
undecodable key string fails with `MalformedKeyEncoding`, and the all-zero
32-byte key is accepted. -/
theorem C5_key_validation :
    (∀ (fw : List Nat) (key_hex : List Char) (v t : Nat) (key : List Nat),
        fw.length ≤ header_offset → fromhex key_hex = some key → key.length ≠ 32 →
        sign_firmware fw key_hex v t =
          .error (.invalidKeyLength (key.length * 8) key_hex.length)) ∧
    (∀ (fw : List Nat) (key_hex : List Char) (v t : Nat),
        fw.length ≤ header_offset → fromhex key_hex = none →
        sign_firmware fw key_hex v t = .error .malformedKeyEncoding) ∧
    (∀ (fw : List Nat) (v t : Nat),
        fw.length ≤ header_offset →
        ∃ img, sign_firmware fw cexKeyHex v t = .ok img) := by
  refine ⟨?_, ?_, ?_⟩
  · intro fw key_hex v t key hfw hkh hne
    unfold sign_firmware
    rw [if_neg (by omega), hkh]
    dsimp only
    rw [if_pos hne]
  · intro fw key_hex v t hfw hkh
    unfold sign_firmware
    rw [if_neg (by omega), hkh]
  · intro fw v t hfw
    exact ⟨_, sign_firmware_ok fw cexKeyHex v t (List.replicate 32 0) hfw (by decide)
      (by decide)⟩

theorem C5_witness :
    ([] : List Nat).length ≤ header_offset ∧
    fromhex (List.replicate 62 (Char.ofNat 48)) = some (List.replicate 31 0) ∧
    (List.replicate 31 (0 : Nat)).length ≠ 32 ∧
    sign_firmware [] (List.replicate 62 (Char.ofNat 48)) 1 0 =
      .error (.invalidKeyLength ((List.replicate 31 (0 : Nat)).length * 8)
        (List.replicate 62 (Char.ofNat 48)).length) ∧
    fromhex [Char.ofNat 122] = none ∧
    sign_firmware [] [Char.ofNat 122] 1 0 = .error .malformedKeyEncoding ∧
    (∃ img, sign_firmware [] cexKeyHex 1 0 = .ok img) :=
  ⟨by decide, by decide, by decide,
   C5_key_validation.1 [] _ 1 0 _ (by decide) (by decide) (by decide),
   by decide,
   C5_key_validation.2.1 [] _ 1 0 (by decide) (by decide),
   C5_key_validation.2.2 [] 1 0 (by decide)⟩

/-- C5 counterexample: with a 31-byte key and a payload one byte over the
limit, `sign_firmware` fails with `PayloadTooLarge`, not
`InvalidKeyLength` — the payload size check runs before the key is
examined, so the claim fails for such payloads. -/
theorem C5_counterexample :
    fromhex (List.replicate 62 (Char.ofNat 48)) = some (List.replicate 31 0) ∧
    (List.replicate 31 (0 : Nat)).length ≠ 32 ∧
    sign_firmware (List.replicate (header_offset + 1) 0) (List.replicate 62 (Char.ofNat 48))
        1 0 = .error (.payloadTooLarge (header_offset + 1) header_offset 1) ∧
    isInvalidKeyLength (sign_firmware (List.replicate (header_offset + 1) 0)
      (List.replicate 62 (Char.ofNat 48)) 1 0) = false := by
  have hl : (List.replicate (header_offset + 1) (0 : Nat)).length = header_offset + 1 := by
    rw [List.length_replicate]
  have heq : sign_firmware (List.replicate (header_offset + 1) 0)
      (List.replicate 62 (Char.ofNat 48)) 1 0 =
      .error (.payloadTooLarge (header_offset + 1) header_offset 1) := by
    unfold sign_firmware
    rw [if_pos (show (List.replicate (header_offset + 1) (0 : Nat)).length > header_offset
      from by rw [hl]; omega)]
    rw [hl]
    simp [Nat.add_sub_cancel_left]
  refine ⟨by decide, by decide, heq, ?_⟩
  rw [heq]
  rfl

end SoC

namespace SoC

/-- C6: the signed image is the zero-padded payload followed by the header
words serialized little-endian at offsets `PAYLOAD_MAX + 0, 4, ..., 28`
(magic `0xDEADBEEF`, version, length = `PAYLOAD_MAX`, entry point
`0x00010000`, timestamp, three zero reserved words) followed by the eight
signature words. -/
theorem C6_image_layout (fw : List Nat) (key_hex : List Char) (v t : Nat) (key : List Nat)
    (hfw : fw.length ≤ header_offset) (hkh : fromhex key_hex = some key)
    (hk : key.length = 32) (hv : v < 4294967296) (ht : t < 4294967296) :
    ∃ img, sign_firmware fw key_hex v t = .ok img ∧
      img.take header_offset = fw ++ List.replicate (header_offset - fw.length) 0 ∧
      (img.drop header_offset).take 4 = le32 0xDEADBEEF ∧
      (img.drop (header_offset + 4)).take 4 = le32 v ∧
      (img.drop (header_offset + 8)).take 4 = le32 header_offset ∧
      (img.drop (header_offset + 12)).take 4 = le32 0x00010000 ∧
      (img.drop (header_offset + 16)).take 4 = le32 t ∧
      (img.drop (header_offset + 20)).take 4 = le32 0 ∧
      (img.drop (header_offset + 24)).take 4 = le32 0 ∧
      (img.drop (header_offset + 28)).take 4 = le32 0 ∧
      img.drop (header_offset + 32) =
        ((List.range 8).map (fun i => readLE32
            (hmacSha256 key
              ((fw ++ List.replicate (header_offset - fw.length) 0) ++ unsignedHeader v t))
            (i * 4))).flatMap le32 := by
  have hp := padded_length fw hfw
  have huh : unsignedHeader v t ++ hmacSha256 key
        ((fw ++ List.replicate (header_offset - fw.length) 0) ++ unsignedHeader v t) =
      le32 0xDEADBEEF ++ (le32 v ++ (le32 header_offset ++ (le32 0x00010000 ++ (le32 t ++
        (le32 0 ++ (le32 0 ++ (le32 0 ++ hmacSha256 key
          ((fw ++ List.replicate (header_offset - fw.length) 0) ++
            unsignedHeader v t)))))))) := by
    simp only [unsignedHeader, List.append_assoc]
  refine ⟨_, sign_firmware_ok fw key_hex v t key hfw hkh hk, ?_, ?_, ?_, ?_, ?_, ?_, ?_, ?_,
    ?_, ?_⟩
  · rw [List.append_assoc, List.take_left' hp]
  · rw [List.append_assoc, List.drop_left' hp, huh, take4_le32]
  · rw [List.append_assoc, drop_offset _ _ header_offset 4 hp, huh, drop4_le32, take4_le32]
  · rw [List.append_assoc, drop_offset _ _ header_offset 8 hp, huh,
      show (8 : Nat) = 4 + 4 from rfl, ← List.drop_drop, drop4_le32, drop4_le32, take4_le32]
  · rw [List.append_assoc, drop_offset _ _ header_offset 12 hp, huh,
      show (12 : Nat) = 4 + 4 + 4 from rfl, ← List.drop_drop, ← List.drop_drop,
      drop4_le32, drop4_le32, drop4_le32, take4_le32]
  · rw [List.append_assoc, drop_offset _ _ header_offset 16 hp, huh,
      show (16 : Nat) = 4 + 4 + 4 + 4 from rfl, ← List.drop_drop, ← List.drop_drop,
      ← List.drop_drop, drop4_le32, drop4_le32, drop4_le32, drop4_le32, take4_le32]
  · rw [List.append_assoc, drop_offset _ _ header_offset 20 hp, huh,
      show (20 : Nat) = 4 + 4 + 4 + 4 + 4 from rfl, ← List.drop_drop, ← List.drop_drop,
      ← List.drop_drop, ← List.drop_drop, drop4_le32, drop4_le32, drop4_le32, drop4_le32,
      drop4_le32, take4_le32]
  · rw [List.append_assoc, drop_offset _ _ header_offset 24 hp, huh,
      show (24 : Nat) = 4 + 4 + 4 + 4 + 4 + 4 from rfl, ← List.drop_drop, ← List.drop_drop,
      ← List.drop_drop, ← List.drop_drop, ← List.drop_drop, drop4_le32, drop4_le32,
      drop4_le32, drop4_le32, drop4_le32, drop4_le32, take4_le32]
  · rw [List.append_assoc, drop_offset _ _ header_offset 28 hp, huh,
      show (28 : Nat) = 4 + 4 + 4 + 4 + 4 + 4 + 4 from rfl, ← List.drop_drop,
      ← List.drop_drop, ← List.drop_drop, ← List.drop_drop, ← List.drop_drop,
      ← List.drop_drop, drop4_le32, drop4_le32, drop4_le32, drop4_le32, drop4_le32,
      drop4_le32, drop4_le32, take4_le32]
  · rw [List.append_assoc, drop_offset _ _ header_offset 32 hp,
      List.drop_left' (unsignedHeader_length v t), flatMap_le32_hmac]

theorem C6_witness :
    ([] : List Nat).length ≤ header_offset ∧
    fromhex cexKeyHex = some (List.replicate 32 0) ∧
    (List.replicate 32 (0 : Nat)).length = 32 ∧ (1 : Nat) < 4294967296 ∧
    (0 : Nat) < 4294967296 ∧
    (∃ img, sign_firmware [] cexKeyHex 1 0 = .ok img ∧
      img.take header_offset = [] ++ List.replicate (header_offset - List.length ([] : List Nat)) 0 ∧
      (img.drop header_offset).take 4 = le32 0xDEADBEEF ∧
      (img.drop (header_offset + 4)).take 4 = le32 1 ∧
      (img.drop (header_offset + 8)).take 4 = le32 header_offset ∧
      (img.drop (header_offset + 12)).take 4 = le32 0x00010000 ∧
      (img.drop (header_offset + 16)).take 4 = le32 0 ∧
      (img.drop (header_offset + 20)).take 4 = le32 0 ∧
      (img.drop (header_offset + 24)).take 4 = le32 0 ∧
      (img.drop (header_offset + 28)).take 4 = le32 0 ∧
      img.drop (header_offset + 32) =
        ((List.range 8).map (fun i => readLE32
            (hmacSha256 (List.replicate 32 0)
              (([] ++ List.replicate (header_offset - List.length ([] : List Nat)) 0) ++
                unsignedHeader 1 0))
            (i * 4))).flatMap le32) :=
  ⟨by decide, by decide, by decide, by decide, by decide,
   C6_image_layout [] cexKeyHex 1 0 (List.replicate 32 0) (by decide) (by decide) (by decide)
     (by decide) (by decide)⟩

end SoC

namespace SoC

theorem filterMap_range_if_lt {α : Type} (f : Nat → α) (m : Nat) : ∀ n : Nat,
    (List.range n).filterMap (fun j => if j < m then some (f j) else none) =
      (List.range (min n m)).map f := by
  intro n
  induction n with
  | zero => simp
  | succ n ih =>
    rw [List.range_succ, List.filterMap_append, ih]
    by_cases h : n < m
    · have h1 : min (n + 1) m = min n m + 1 := by omega
      have h2 : min n m = n := by omega
      rw [h1, h2, List.range_succ, List.map_append]
      simp [h]
    · have h1 : min (n + 1) m = min n m := by omega
      simp [h, h1]

theorem getD_append_zeros (data : List Nat) (k i : Nat) :
    (data ++ List.replicate k 0).getD i 0 = data.getD i 0 := by
  rw [List.getD_eq_getElem?_getD, List.getD_eq_getElem?_getD]
  by_cases hi : i < data.length
  · rw [List.getElem?_append_left hi]
  · rw [List.getElem?_append_right (show data.length ≤ i by omega)]
    have hr : data[i]? = none := List.getElem?_eq_none (by omega)
    rw [hr]
    cases hx : (List.replicate k (0 : Nat))[i - data.length]? with
    | none => rfl
    | some b =>
      have hb := List.eq_of_mem_replicate (List.getElem?_mem hx)
      rw [hb]
      rfl

theorem getD_padTo4 (data : List Nat) (i : Nat) :
    (padTo4 data).getD i 0 = data.getD i 0 := by
  unfold padTo4
  split
  · rw [getD_append_zeros]
  · rfl

theorem getD_lt_256 (l : List Nat) (h : ∀ b ∈ l, b < 256) (i : Nat) : l.getD i 0 < 256 := by
  rw [List.getD_eq_getElem?_getD]
  cases hx : l[i]? with
  | none => decide
  | some b =>
    have := h b (List.getElem?_mem hx)
    simpa using this

theorem padTo4_bytes_lt (data : List Nat) (hb : ∀ b ∈ data, b < 256) :
    ∀ b ∈ padTo4 data, b < 256 := by
  unfold padTo4
  split
  · intro b hbmem
    rcases List.mem_append.mp hbmem with h | h
    · exact hb b h
    · rw [List.eq_of_mem_replicate h]
      decide
  · exact hb

/-- The or-of-shifted-bytes word assembly of `bin2hex` agrees with the plain
little-endian value of the four bytes when they are in byte range. -/
theorem orLE32_eq_fromBytesLE (m : List Nat) (i : Nat) (hm : ∀ b ∈ m, b < 256) :
    orLE32 m i = fromBytesLE m i := by
  have h0 := getD_lt_256 m hm i
  have h1 := getD_lt_256 m hm (i + 1)
  have h2 := getD_lt_256 m hm (i + 2)
  have h3 := getD_lt_256 m hm (i + 3)
  unfold orLE32 fromBytesLE
  generalize m.getD i 0 = b0 at h0 ⊢
  generalize m.getD (i + 1) 0 = b1 at h1 ⊢
  generalize m.getD (i + 2) 0 = b2 at h2 ⊢
  generalize m.getD (i + 3) 0 = b3 at h3 ⊢
  rw [Nat.shiftLeft_eq, Nat.shiftLeft_eq, Nat.shiftLeft_eq,
    Nat.mul_comm b1 (2 ^ 8), Nat.mul_comm b2 (2 ^ 16), Nat.mul_comm b3 (2 ^ 24)]
  have o1 : 2 ^ 8 * b1 + b0 = 2 ^ 8 * b1 ||| b0 := Nat.mul_add_lt_is_or h0 b1
  have o2 : 2 ^ 16 * b2 + (2 ^ 8 * b1 + b0) = 2 ^ 16 * b2 ||| (2 ^ 8 * b1 + b0) :=
    Nat.mul_add_lt_is_or (by omega) b2
  have o3 : 2 ^ 24 * b3 + (2 ^ 16 * b2 + (2 ^ 8 * b1 + b0)) =
      2 ^ 24 * b3 ||| (2 ^ 16 * b2 + (2 ^ 8 * b1 + b0)) :=
    Nat.mul_add_lt_is_or (by omega) b3
  rw [Nat.lor_comm b0 (2 ^ 8 * b1), ← o1, Nat.lor_comm _ (2 ^ 16 * b2), ← o2,
    Nat.lor_comm _ (2 ^ 24 * b3), ← o3]
  omega

/-- C9: both format converters pad the input to a word boundary and emit
one line per 32-bit word, the value of word `j` being the little-endian
interpretation of bytes `4j..4j+3` of the padded buffer — `bin2hex` as an
8-hex-digit line, `make_imem` as an indexed assignment statement. -/
theorem C9_word_conversion (data : List Nat) (hb : ∀ b ∈ data, b < 256) :
    (padTo4 data).length = 4 * wordCount data.length ∧
    bin2hex data none =
      (List.range (wordCount data.length)).map
        (fun j => hex8 (fromBytesLE (padTo4 data) (4 * j))) ∧
    make_imem data =
      (List.range (wordCount data.length)).map
        (fun j => "    memory[" ++ toString j ++ "] = 32" ++ String.mk [Char.ofNat 39] ++
          "h" ++ hex8 (fromBytesLE (padTo4 data) (4 * j)) ++ ";") := by
  have hlen : (padTo4 data).length = 4 * wordCount data.length := by
    unfold padTo4 wordCount
    split
    · rw [List.length_append, List.length_replicate]
      omega
    · omega
  have hwc : (padTo4 data).length / 4 = wordCount data.length := by
    rw [hlen]
    omega
  refine ⟨hlen, ?_, ?_⟩
  · show (List.range ((padTo4 data).length / 4)).filterMap (fun j =>
        if j < Option.getD none ((padTo4 data).length / 4) then
          some (hex8 (orLE32 (padTo4 data) (4 * j))) else none) ++
      List.replicate (Option.getD none ((padTo4 data).length / 4) -
        (padTo4 data).length / 4) "00000000" = _
    rw [show Option.getD none ((padTo4 data).length / 4) = (padTo4 data).length / 4 from rfl,
      filterMap_range_if_lt, Nat.min_self, Nat.sub_self, List.replicate_zero, List.append_nil,
      hwc]
    exact List.map_congr_left (fun j _ => by
      rw [orLE32_eq_fromBytesLE (padTo4 data) (4 * j) (padTo4_bytes_lt data hb)])
  · show (List.range ((data.length + 3) / 4)).map (fun j =>
        "    memory[" ++ toString j ++ "] = 32" ++ String.mk [Char.ofNat 39] ++ "h" ++
          hex8 (fromBytesLE data (4 * j)) ++ ";") = _
    exact List.map_congr_left (fun j _ => by
      rw [show fromBytesLE data (4 * j) = fromBytesLE (padTo4 data) (4 * j) from by
        unfold fromBytesLE
        rw [getD_padTo4, getD_padTo4, getD_padTo4, getD_padTo4]])

theorem C9_witness :
    (∀ b ∈ [0xEF, 0xBE, 0xAD, 0xDE, 1], b < 256) ∧
    ((padTo4 [0xEF, 0xBE, 0xAD, 0xDE, 1]).length =
        4 * wordCount (List.length [0xEF, 0xBE, 0xAD, 0xDE, 1]) ∧
      bin2hex [0xEF, 0xBE, 0xAD, 0xDE, 1] none =
        (List.range (wordCount (List.length [0xEF, 0xBE, 0xAD, 0xDE, 1]))).map
          (fun j => hex8 (fromBytesLE (padTo4 [0xEF, 0xBE, 0xAD, 0xDE, 1]) (4 * j))) ∧
      make_imem [0xEF, 0xBE, 0xAD, 0xDE, 1] =
        (List.range (wordCount (List.length [0xEF, 0xBE, 0xAD, 0xDE, 1]))).map
          (fun j => "    memory[" ++ toString j ++ "] = 32" ++ String.mk [Char.ofNat 39] ++
            "h" ++ hex8 (fromBytesLE (padTo4 [0xEF, 0xBE, 0xAD, 0xDE, 1]) (4 * j)) ++ ";")) :=
  ⟨by decide, C9_word_conversion [0xEF, 0xBE, 0xAD, 0xDE, 1] (by decide)⟩

/-- C10: with an explicit word count the output always has exactly
`num_words` lines: the first `min actual num_words` are data words (extra
input words are silently dropped) and the rest are `"00000000"` padding. -/
theorem C10_explicit_num_words (data : List Nat) (nw : Nat) :
    (bin2hex data (some nw)).length = nw ∧
    bin2hex data (some nw) =
      ((List.range (min ((padTo4 data).length / 4) nw)).map
        (fun j => hex8 (orLE32 (padTo4 data) (4 * j)))) ++
      List.replicate (nw - (padTo4 data).length / 4) "00000000" := by
  have he : bin2hex data (some nw) =
      ((List.range (min ((padTo4 data).length / 4) nw)).map
        (fun j => hex8 (orLE32 (padTo4 data) (4 * j)))) ++
      List.replicate (nw - (padTo4 data).length / 4) "00000000" := by
    show (List.range ((padTo4 data).length / 4)).filterMap (fun j =>
        if j < Option.getD (some nw) ((padTo4 data).length / 4) then
          some (hex8 (orLE32 (padTo4 data) (4 * j))) else none) ++
      List.replicate (Option.getD (some nw) ((padTo4 data).length / 4) -
        (padTo4 data).length / 4) "00000000" = _
    rw [show Option.getD (some nw) ((padTo4 data).length / 4) = nw from rfl,
      filterMap_range_if_lt]
  refine ⟨?_, he⟩
  rw [he, List.length_append, List.length_map, List.length_range, List.length_replicate]
  omega

theorem C10_witness :
    ((bin2hex [0xEF, 0xBE, 0xAD, 0xDE, 1] (some 4)).length = 4 ∧
      bin2hex [0xEF, 0xBE, 0xAD, 0xDE, 1] (some 4) =
        ((List.range (min ((padTo4 [0xEF, 0xBE, 0xAD, 0xDE, 1]).length / 4) 4)).map
          (fun j => hex8 (orLE32 (padTo4 [0xEF, 0xBE, 0xAD, 0xDE, 1]) (4 * j)))) ++
        List.replicate (4 - (padTo4 [0xEF, 0xBE, 0xAD, 0xDE, 1]).length / 4) "00000000") ∧
    ((bin2hex [0xEF, 0xBE, 0xAD, 0xDE, 1] (some 1)).length = 1 ∧
      bin2hex [0xEF, 0xBE, 0xAD, 0xDE, 1] (some 1) =
        ((List.range (min ((padTo4 [0xEF, 0xBE, 0xAD, 0xDE, 1]).length / 4) 1)).map
          (fun j => hex8 (orLE32 (padTo4 [0xEF, 0xBE, 0xAD, 0xDE, 1]) (4 * j)))) ++
        List.replicate (1 - (padTo4 [0xEF, 0xBE, 0xAD, 0xDE, 1]).length / 4) "00000000") :=
  ⟨C10_explicit_num_words [0xEF, 0xBE, 0xAD, 0xDE, 1] 4,
   C10_explicit_num_words [0xEF, 0xBE, 0xAD, 0xDE, 1] 1⟩

end SoC
